import Mathlib

/-!
Verification of the pararead partition/dispatch/combine pipeline.

The repository source under scrutiny is the `ParaReadProcessor` orchestration
class (`pararead/processor.py`) together with its exception taxonomy
(`pararead/exceptions.py`).  Those two modules are not present in the source
tree available here; only their tests (`tests/test_processor.py`) and an
example caller (`examples/count_reads_basic.py`) are.  The definitions below
are therefore modelled from the specification document, faithful to its
words, and each carries a doc comment saying so.
-/

namespace Pararead

/-- Modelled from the spec: the exception taxonomy of `pararead/exceptions.py`
(missing from the source tree).  `CommandOrderException` marks an operation
whose prerequisite step was not yet performed. -/
inductive AccessError where
  | commandOrder
deriving DecidableEq, Repr

/-- Modelled from the spec: the validation error raised by `register_files`
in `pararead/processor.py` (missing from the source tree) when the reads
file fails the aligned-input requirement. -/
inductive RegisterError where
  | validation
deriving DecidableEq, Repr

/-- Modelled from the spec: the combine-phase members of the exception
taxonomy of `pararead/exceptions.py` (missing from the source tree).
`illegalChunk` carries the offending key; `missingOutputFile` marks a strict
combine that found at least one requested key with no temp file. -/
inductive CombineError where
  | illegalChunk (key : String)
  | missingOutputFile
deriving DecidableEq, Repr

/-- Modelled from the spec: the rendered exception message; an
`IllegalChunkException` names the offending key in its message. -/
def CombineError.message : CombineError → String
  | CombineError.illegalChunk k => "Chunk " ++ k ++ " is not in the configured limit"
  | CombineError.missingOutputFile => "Missing output file for at least one requested chunk"

/-- Modelled from the spec: the reads-file collaborator, reduced to the one
attribute the validation logic inspects, namely whether the file is aligned. -/
structure ReadsFile where
  aligned : Bool
deriving DecidableEq, Repr

/-- Modelled from the spec: the state of a `ParaReadProcessor`
(`pararead/processor.py`, missing from the source tree): the aligned-input
requirement, the construction-time allow-unaligned override, the lazily
cached reads handle (`none` before registration), the optional chunk-key
Limit, the run-scoped temp folder, the intermediate format tag selecting the
temp-file extension, and the final output path. -/
structure Processor where
  require_aligned : Bool
  allow_unaligned : Bool
  readsfileHandle : Option ReadsFile
  limit : Option (List String)
  temp_folder : String
  intermediate_output_type : String
  outfile : String
deriving DecidableEq, Repr

/-- Modelled from the spec: `TempFileStore.path_for` — each chunk key maps to
the deterministic path temp_folder/key.format_tag. -/
def path_for (p : Processor) (key : String) : String :=
  p.temp_folder ++ "/" ++ key ++ "." ++ p.intermediate_output_type

/-- Modelled from the spec: the single warning logged when combine() is
invoked with an empty request list. -/
def nothingToCombineWarning : String :=
  "Nothing to combine"

/-- Modelled from the spec: the warning logged, one per missing key, during a
non-strict combine. -/
def missingWarning (key : String) : String :=
  "Skipping chunk with no output file: " ++ key

/-- Modelled from the spec: step 1 of the combine algorithm — when a Limit is
configured, the first requested key outside it, if any. -/
def limitViolator (limit : Option (List String)) (requested : List String) :
    Option String :=
  match limit with
  | none => none
  | some allowed => requested.find? (fun k => !(allowed.contains k))

/-- Modelled from the spec: the default merge strategy — ordered
concatenation of the source files' contents, optionally separator-joined. -/
def mergeContent (contents : String → String) (paths : List String)
    (sep : Option String) : String :=
  String.intercalate (sep.getD "") (paths.map contents)

/-- Modelled from the spec: the observable outcome of one combine() call:
the exception raised if any, the returned list of merged source paths, the
warnings logged, and the content written to FinalOutput (`none` when
FinalOutput is neither created nor modified). -/
structure CombineResult where
  error : Option CombineError
  mergedPaths : List String
  warnings : List String
  finalWrite : Option String
deriving DecidableEq, Repr

/-- Modelled from the spec: `ParaReadProcessor.combine`
(`pararead/processor.py`, missing from the source tree).  The filesystem is
abstracted by `extant` (which paths exist) and `contents` (their contents).
Steps, in order: 1. Limit validation; 2. classification of each requested
key's temp path as found or missing; 3. empty-request warning; 4. strict
missing-file failure; 5. per-missing-key warnings in the lenient mode;
6. merge of the found files into FinalOutput (none produced when nothing was
found); 7. return of the ordered merged source paths. -/
def combine (p : Processor) (extant : String → Bool) (contents : String → String)
    (requested : List String) (strict : Bool) (sep : Option String) :
    CombineResult :=
  match limitViolator p.limit requested with
  | some bad =>
      { error := some (CombineError.illegalChunk bad), mergedPaths := [],
        warnings := [], finalWrite := none }
  | none =>
      let found := requested.filter (fun k => extant (path_for p k))
      let missing := requested.filter (fun k => !extant (path_for p k))
      match requested with
      | [] =>
          { error := none, mergedPaths := [],
            warnings := [nothingToCombineWarning], finalWrite := none }
      | _ :: _ =>
          if missing = [] then
            { error := none, mergedPaths := found.map (path_for p),
              warnings := [],
              finalWrite := some (mergeContent contents (found.map (path_for p)) sep) }
          else if strict then
            { error := some CombineError.missingOutputFile, mergedPaths := [],
              warnings := [], finalWrite := none }
          else
            { error := none, mergedPaths := found.map (path_for p),
              warnings := missing.map missingWarning,
              finalWrite :=
                if found = [] then none
                else some (mergeContent contents (found.map (path_for p)) sep) }

/-- C5: for requested_keys = [] and either strict value, combine() emits
exactly one warning, performs no merge, and returns without creating or
modifying the FinalOutput file. -/
theorem combine_empty_request (p : Processor) (extant : String → Bool)
    (contents : String → String) (strict : Bool) (sep : Option String) :
    combine p extant contents [] strict sep =
      { error := none, mergedPaths := [],
        warnings := [nothingToCombineWarning], finalWrite := none } := by
  cases h : p.limit <;> simp [combine, limitViolator, h]

/-- C1: for every non-empty requested_keys list within the Limit in which at
least one requested key has no temp file, combine() with strict = true
raises MissingOutputFileException, and the FinalOutput file is neither
created nor modified. -/
theorem combine_strict_missing (p : Processor) (extant : String → Bool)
    (contents : String → String) (requested : List String) (sep : Option String)
    (hne : requested ≠ [])
    (hlim : limitViolator p.limit requested = none)
    (hmiss : ∃ k ∈ requested, extant (path_for p k) = false) :
    combine p extant contents requested true sep =
      { error := some CombineError.missingOutputFile, mergedPaths := [],
        warnings := [], finalWrite := none } := by
  obtain ⟨k, hk, hkext⟩ := hmiss
  obtain ⟨a, as, rfl⟩ := List.exists_cons_of_ne_nil hne
  have hmem : k ∈ (a :: as).filter (fun j => !extant (path_for p j)) := by
    simp [List.mem_filter, hk, hkext]
  have hfil : (a :: as).filter (fun j => !extant (path_for p j)) ≠ [] :=
    List.ne_nil_of_mem hmem
  simp only [combine, hlim]
  simp [hfil]

/-- Closed witness for C1 at a concrete processor and request. -/
theorem combine_strict_missing_witness :
    combine
      { require_aligned := true, allow_unaligned := false,
        readsfileHandle := none, limit := none, temp_folder := "tmp",
        intermediate_output_type := "txt", outfile := "out.txt" }
      (fun _ => false) (fun _ => "") ["chr1", "chr2"] true none =
      { error := some CombineError.missingOutputFile, mergedPaths := [],
        warnings := [], finalWrite := none } :=
  combine_strict_missing _ _ _ _ _ (by decide) (by decide)
    ⟨"chr1", by decide, rfl⟩

/-- C2: when a Limit is configured and some requested key falls outside it,
combine() raises IllegalChunkException carrying the first offending key, and
the exception message names that key.  The validation is step 1 of the
algorithm: the outcome is the same for every filesystem state (`extant`,
`contents` are universally quantified), no temp-file classification is
observable, and no missing-file error or warning is produced. -/
theorem combine_limit_violation (p : Processor) (allowed : List String)
    (extant : String → Bool) (contents : String → String)
    (requested : List String) (strict : Bool) (sep : Option String) (k : String)
    (hlim : p.limit = some allowed)
    (hk : requested.find? (fun j => !(allowed.contains j)) = some k) :
    combine p extant contents requested strict sep =
      { error := some (CombineError.illegalChunk k), mergedPaths := [],
        warnings := [], finalWrite := none } ∧
    (∃ pre post, (CombineError.illegalChunk k).message = pre ++ k ++ post) := by
  constructor
  · simp only [combine, limitViolator, hlim, hk]
  · exact ⟨"Chunk ", " is not in the configured limit", rfl⟩

/-- Closed witness for C2 at a concrete processor, Limit and request. -/
theorem combine_limit_violation_witness :
    combine
      { require_aligned := true, allow_unaligned := false,
        readsfileHandle := none, limit := some ["chr1"], temp_folder := "tmp",
        intermediate_output_type := "txt", outfile := "out.txt" }
      (fun _ => true) (fun _ => "") ["chr1", "not-a-chunk"] false none =
      { error := some (CombineError.illegalChunk "not-a-chunk"),
        mergedPaths := [], warnings := [], finalWrite := none } ∧
    (∃ pre post,
      (CombineError.illegalChunk "not-a-chunk").message =
        pre ++ "not-a-chunk" ++ post) :=
  combine_limit_violation _ ["chr1"] _ _ _ _ _ _ rfl (by decide)

/-- C3: in the lenient mode on a non-empty in-Limit request, combine() raises
nothing, logs exactly one warning per requested key whose temp file is
missing, and merges only the found files; when no requested key has a temp
file, that is length-of-request many warnings, an empty merged-file list and
no FinalOutput. -/
theorem combine_nonstrict_warnings (p : Processor) (extant : String → Bool)
    (contents : String → String) (requested : List String) (sep : Option String)
    (hne : requested ≠ [])
    (hlim : limitViolator p.limit requested = none) :
    (combine p extant contents requested false sep).error = none ∧
    (combine p extant contents requested false sep).warnings =
      (requested.filter (fun k => !extant (path_for p k))).map missingWarning ∧
    (combine p extant contents requested false sep).mergedPaths =
      (requested.filter (fun k => extant (path_for p k))).map (path_for p) ∧
    ((∀ k ∈ requested, extant (path_for p k) = false) →
      (combine p extant contents requested false sep).warnings.length =
        requested.length ∧
      (combine p extant contents requested false sep).mergedPaths = [] ∧
      (combine p extant contents requested false sep).finalWrite = none) := by
  obtain ⟨a, as, rfl⟩ := List.exists_cons_of_ne_nil hne
  simp only [combine, hlim]
  by_cases hmiss : (a :: as).filter (fun j => !extant (path_for p j)) = []
  · refine ⟨by simp [hmiss], by simp [hmiss], by simp [hmiss], ?_⟩
    intro hall
    exfalso
    have ha : a ∈ (a :: as).filter (fun j => !extant (path_for p j)) := by
      simp [List.mem_filter, hall a (by simp)]
    exact List.not_mem_nil a (hmiss ▸ ha)
  · refine ⟨by simp [hmiss], by simp [hmiss], by simp [hmiss], ?_⟩
    intro hall
    have hfilterall :
        (a :: as).filter (fun j => !extant (path_for p j)) = a :: as := by
      apply List.filter_eq_self.mpr
      intro j hj
      simp [hall j hj]
    have hfound : (a :: as).filter (fun j => extant (path_for p j)) = [] := by
      apply List.filter_eq_nil_iff.mpr
      intro j hj
      simp [hall j hj]
    simp [hmiss, hfilterall, hfound]

/-- Closed witness for C3: a request of two keys with no temp files yields
two warnings, an empty merged list and no FinalOutput. -/
theorem combine_nonstrict_warnings_witness :
    (combine
      { require_aligned := true, allow_unaligned := false,
        readsfileHandle := none, limit := none, temp_folder := "tmp",
        intermediate_output_type := "txt", outfile := "out.txt" }
      (fun _ => false) (fun _ => "") ["chr1", "chr2"] false none).warnings.length
        = 2 ∧
    (combine
      { require_aligned := true, allow_unaligned := false,
        readsfileHandle := none, limit := none, temp_folder := "tmp",
        intermediate_output_type := "txt", outfile := "out.txt" }
      (fun _ => false) (fun _ => "") ["chr1", "chr2"] false none).mergedPaths
        = [] :=
  ⟨((combine_nonstrict_warnings _ _ _ _ _ (by decide) (by decide)).2.2.2
      (by decide)).1,
   ((combine_nonstrict_warnings _ _ _ _ _ (by decide) (by decide)).2.2.2
      (by decide)).2.1⟩

/-- C4: for a request that does not violate the Limit, whenever combine()
returns (raises nothing), the returned list is exactly the temp paths
temp_folder/key.format_tag of the requested keys whose temp file exists, in
requested order — a function of the caller-supplied request alone; in the
lenient mode it always returns.  The path formula is that of `path_for`. -/
theorem combine_return_value (p : Processor) (extant : String → Bool)
    (contents : String → String) (requested : List String) (strict : Bool)
    (sep : Option String)
    (hlim : limitViolator p.limit requested = none) :
    ((combine p extant contents requested strict sep).error = none →
      (combine p extant contents requested strict sep).mergedPaths =
        (requested.filter (fun k => extant (path_for p k))).map (path_for p)) ∧
    (strict = false →
      (combine p extant contents requested strict sep).error = none) ∧
    (∀ k, path_for p k =
      p.temp_folder ++ "/" ++ k ++ "." ++ p.intermediate_output_type) := by
  refine ⟨?_, ?_, fun k => rfl⟩
  · intro herr
    match requested with
    | [] => simp [combine, hlim] at herr ⊢
    | a :: as =>
      simp only [combine, hlim] at herr ⊢
      by_cases hmiss : (a :: as).filter (fun j => !extant (path_for p j)) = []
      · simp [hmiss]
      · cases strict with
        | true => simp [hmiss] at herr
        | false => simp [hmiss]
  · intro hs
    subst hs
    match requested with
    | [] => simp [combine, hlim]
    | a :: as =>
      simp only [combine, hlim]
      by_cases hmiss : (a :: as).filter (fun j => !extant (path_for p j)) = [] <;>
        simp [hmiss]

/-- Closed witness for C4: with only chr2's temp file extant, the returned
list is exactly chr2's temp path. -/
theorem combine_return_value_witness :
    (combine
      { require_aligned := true, allow_unaligned := false,
        readsfileHandle := none, limit := none, temp_folder := "tmp",
        intermediate_output_type := "txt", outfile := "out.txt" }
      (fun q => q == "tmp/chr2.txt") (fun _ => "") ["chr1", "chr2"] false
      none).mergedPaths = ["tmp/chr2.txt"] := by
  have h :=
    (combine_return_value
      { require_aligned := true, allow_unaligned := false,
        readsfileHandle := none, limit := none, temp_folder := "tmp",
        intermediate_output_type := "txt", outfile := "out.txt" }
      (fun q => q == "tmp/chr2.txt") (fun _ => "") ["chr1", "chr2"] false
      none (by decide))
  have := h.1 (h.2.1 rfl)
  simp only [this]
  decide

/-- Modelled from the spec: the `readsfile()` accessor of
`pararead/processor.py` (missing from the source tree) — fails with
CommandOrderException when no handle has been cached by registration,
returns the cached handle otherwise. -/
def readsfile (p : Processor) : Except AccessError ReadsFile :=
  match p.readsfileHandle with
  | none => Except.error AccessError.commandOrder
  | some h => Except.ok h

/-- Modelled from the spec: `register_files` of `pararead/processor.py`
(missing from the source tree) — opens the reads file, failing with a
validation error exactly when the file is unaligned, aligned input is
required, and neither the construction-time allow-unaligned flag nor a
reader option permits unaligned input; on success it caches the open handle
in the processor state. -/
def register_files (p : Processor) (file : ReadsFile)
    (readerAllowsUnaligned : Bool) : Except RegisterError Processor :=
  if !file.aligned && p.require_aligned && !p.allow_unaligned &&
      !readerAllowsUnaligned then
    Except.error RegisterError.validation
  else
    Except.ok { p with readsfileHandle := some file }

/-- C6: before registration has been performed, any access to the reads-file
handle accessor fails with CommandOrderException; after register_files
succeeds, the accessor returns the handle that was opened. -/
theorem readsfile_command_order (p : Processor)
    (hpre : p.readsfileHandle = none) :
    readsfile p = Except.error AccessError.commandOrder ∧
    (∀ (file : ReadsFile) (opt : Bool) (q : Processor),
      register_files p file opt = Except.ok q →
      readsfile q = Except.ok file) := by
  constructor
  · simp [readsfile, hpre]
  · intro file opt q hreg
    simp only [register_files] at hreg
    split at hreg
    · exact absurd hreg (by simp)
    · cases hreg
      rfl

/-- Closed witness for C6 at a freshly constructed processor. -/
theorem readsfile_command_order_witness :
    readsfile
      { require_aligned := true, allow_unaligned := false,
        readsfileHandle := none, limit := none, temp_folder := "tmp",
        intermediate_output_type := "txt", outfile := "out.txt" } =
      Except.error AccessError.commandOrder ∧
    readsfile
      { require_aligned := true, allow_unaligned := false,
        readsfileHandle := some { aligned := true }, limit := none,
        temp_folder := "tmp", intermediate_output_type := "txt",
        outfile := "out.txt" } = Except.ok { aligned := true } :=
  ⟨(readsfile_command_order _ rfl).1,
   (readsfile_command_order
      { require_aligned := true, allow_unaligned := false,
        readsfileHandle := none, limit := none, temp_folder := "tmp",
        intermediate_output_type := "txt", outfile := "out.txt" } rfl).2
      { aligned := true } false _ rfl⟩

/-- C7: register_files fails with a validation error exactly when the reads
file is unaligned, aligned input is required, and neither override
(construction-time allow-unaligned flag, reader option) permits unaligned
input; in every other case registration succeeds and caches the open
handle, leaving the other processor state unchanged. -/
theorem register_files_validation (p : Processor) (file : ReadsFile)
    (opt : Bool) :
    (register_files p file opt = Except.error RegisterError.validation ↔
      (file.aligned = false ∧ p.require_aligned = true ∧
        p.allow_unaligned = false ∧ opt = false)) ∧
    (∀ q : Processor, register_files p file opt = Except.ok q →
      q = { p with readsfileHandle := some file }) := by
  constructor
  · obtain ⟨al⟩ := file
    cases al <;> cases hra : p.require_aligned <;>
      cases hau : p.allow_unaligned <;> cases opt <;>
      simp [register_files, hra, hau]
  · intro q hreg
    simp only [register_files] at hreg
    split at hreg
    · exact absurd hreg (by simp)
    · cases hreg
      rfl

/-- Closed witness for C7: an unaligned file with alignment required and no
override fails validation; the allow-unaligned flag makes it succeed with
the handle cached. -/
theorem register_files_validation_witness :
    register_files
      { require_aligned := true, allow_unaligned := false,
        readsfileHandle := none, limit := none, temp_folder := "tmp",
        intermediate_output_type := "txt", outfile := "out.txt" }
      { aligned := false } false = Except.error RegisterError.validation ∧
    register_files
      { require_aligned := true, allow_unaligned := true,
        readsfileHandle := none, limit := none, temp_folder := "tmp",
        intermediate_output_type := "txt", outfile := "out.txt" }
      { aligned := false } false =
      Except.ok
        { require_aligned := true, allow_unaligned := true,
          readsfileHandle := some { aligned := false }, limit := none,
          temp_folder := "tmp", intermediate_output_type := "txt",
          outfile := "out.txt" } :=
  ⟨(register_files_validation _ { aligned := false } false).1.mpr
      ⟨rfl, rfl, rfl, rfl⟩,
   by
    have h :=
      (register_files_validation
        { require_aligned := true, allow_unaligned := true,
          readsfileHandle := none, limit := none, temp_folder := "tmp",
          intermediate_output_type := "txt", outfile := "out.txt" }
        { aligned := false } false).2
    cases hreg : register_files
        { require_aligned := true, allow_unaligned := true,
          readsfileHandle := none, limit := none, temp_folder := "tmp",
          intermediate_output_type := "txt", outfile := "out.txt" }
        { aligned := false } false with
    | error e => simp [register_files] at hreg
    | ok q => rw [h q hreg]⟩

/-- Modelled from the spec: the sequential `run` of the WorkDispatcher in
`pararead/processor.py` (missing from the source tree), with an explicit
invocation log.  Each key is attempted once in submission order; a work
invocation that raises is logged and dropped, never propagated and never
retried.  The first component is RunResult (the keys whose invocation
completed without error, each returning its key), the second the list of
attempted invocations. -/
def runSeq (work : String → Except String String) :
    List String → List String × List String
  | [] => ([], [])
  | k :: ks =>
      let rest := runSeq work ks
      match work k with
      | Except.ok r => (r :: rest.1, k :: rest.2)
      | Except.error _ => (rest.1, k :: rest.2)

/-- C8: run() attempts every submitted key exactly once, in order, whatever
each invocation does — no failing chunk aborts the run, no key is retried,
and no exception propagates (runSeq is total); RunResult keeps exactly the
keys of the successful invocations, and a key whose invocation raises is
excluded from RunResult. -/
theorem runSeq_drops_failures (work : String → Except String String)
    (keys : List String) (k : String) (e : String)
    (hret : ∀ j r, work j = Except.ok r → r = j)
    (hk : work k = Except.error e) :
    (runSeq work keys).2 = keys ∧
    (runSeq work keys).1 =
      keys.filter (fun j => (work j).toOption.isSome) ∧
    k ∉ (runSeq work keys).1 := by
  induction keys with
  | nil => simp [runSeq]
  | cons a as ih =>
    obtain ⟨ih2, ih1, ihmem⟩ := ih
    cases ha : work a with
    | ok r =>
      have hra : r = a := hret a r ha
      subst hra
      refine ⟨by simp [runSeq, ha, ih2],
        by simp [runSeq, ha, ih1, List.filter_cons, Except.toOption], ?_⟩
      simp only [runSeq, ha]
      intro hmem
      rcases List.mem_cons.mp hmem with hcase | hcase
      · subst hcase
        exact absurd ha (by simp [hk])
      · exact ihmem hcase
    | error msg =>
      refine ⟨by simp [runSeq, ha, ih2],
        by simp [runSeq, ha, ih1, List.filter_cons, Except.toOption], ?_⟩
      simpa [runSeq, ha] using ihmem

/-- Closed witness for C8: with chr2 failing, both keys are attempted and
RunResult is exactly the other key. -/
theorem runSeq_drops_failures_witness :
    (runSeq
      (fun j => if j = "chr2" then Except.error "boom" else Except.ok j)
      ["chr1", "chr2"]).2 = ["chr1", "chr2"] ∧
    "chr2" ∉ (runSeq
      (fun j => if j = "chr2" then Except.error "boom" else Except.ok j)
      ["chr1", "chr2"]).1 :=
  ⟨(runSeq_drops_failures _ ["chr1", "chr2"] "chr2" "boom"
      (by
        intro j r hj
        by_cases hcase : j = "chr2"
        · simp [hcase] at hj
        · simp [hcase] at hj
          simp [hj])
      (by simp)).1,
   (runSeq_drops_failures _ ["chr1", "chr2"] "chr2" "boom"
      (by
        intro j r hj
        by_cases hcase : j = "chr2"
        · simp [hcase] at hj
        · simp [hcase] at hj
          simp [hj])
      (by simp)).2.2⟩

/-- Modelled from the spec: the unit-of-work capability, `process(key) ->
key`, that a concrete subclass supplies. -/
def WorkUnit : Type := String → Except String String

/-- Modelled from the spec: the error raised when constructing the
orchestrating type; `ParaReadProcessor` itself raises a TypeError whose
message mentions that the class is abstract. -/
inductive ConstructError where
  | typeError (msg : String)
deriving DecidableEq, Repr

/-- Modelled from the spec: the TypeError message produced when the abstract
orchestrating class is instantiated directly. -/
def abstractClassMessage : String :=
  "Cannot instantiate abstract class ParaReadProcessor with abstract method call"

/-- Modelled from the spec: construction of the orchestrating processor type
of `pararead/processor.py` (missing from the source tree).  Direct
instantiation — no unit-of-work capability supplied — fails with a TypeError
mentioning that the class is abstract, even when every required constructor
argument is supplied; a subclass supplying the capability constructs a
processor with an unregistered handle and no Limit. -/
def mkParaReadProcessor (workUnit : Option WorkUnit) (pathReadsFile : String)
    (cores : Nat) (outfile : String) (ra au : Bool)
    (tf fmt : String) : Except ConstructError Processor :=
  match workUnit with
  | none => Except.error (ConstructError.typeError abstractClassMessage)
  | some _ =>
      Except.ok
        { require_aligned := ra, allow_unaligned := au,
          readsfileHandle := none, limit := none, temp_folder := tf,
          intermediate_output_type := fmt, outfile := outfile }

/-- C10: the orchestrating processor type is abstract — constructing it with
no unit-of-work capability fails with a TypeError whose message mentions
"abstract", whatever required constructor arguments are supplied; with the
capability supplied by a subclass, construction succeeds. -/
theorem paraReadProcessor_is_abstract (pathReadsFile : String) (cores : Nat)
    (outfile : String) (ra au : Bool) (tf fmt : String) :
    (∃ msg,
      mkParaReadProcessor none pathReadsFile cores outfile ra au tf fmt =
        Except.error (ConstructError.typeError msg) ∧
      ∃ pre post, msg = pre ++ "abstract" ++ post) ∧
    (∀ w : WorkUnit, ∃ q : Processor,
      mkParaReadProcessor (some w) pathReadsFile cores outfile ra au tf fmt =
        Except.ok q) := by
  refine ⟨⟨abstractClassMessage, rfl,
    "Cannot instantiate ", " class ParaReadProcessor with abstract method call",
    by decide⟩, fun w => ⟨_, rfl⟩⟩

/-- Helper for the idempotence proof: combine() only reads the filesystem at
the temp paths of the requested keys, so two filesystem views that agree
there give the same combine outcome. -/
theorem combine_congr (p : Processor) (extant₁ extant₂ : String → Bool)
    (contents₁ contents₂ : String → String) (requested : List String)
    (strict : Bool) (sep : Option String)
    (hext : ∀ k ∈ requested, extant₁ (path_for p k) = extant₂ (path_for p k))
    (hcon : ∀ k ∈ requested,
      contents₁ (path_for p k) = contents₂ (path_for p k)) :
    combine p extant₁ contents₁ requested strict sep =
      combine p extant₂ contents₂ requested strict sep := by
  have hfound : requested.filter (fun k => extant₁ (path_for p k)) =
      requested.filter (fun k => extant₂ (path_for p k)) :=
    List.filter_congr (fun k hk => by rw [hext k hk])
  have hmissing : requested.filter (fun k => !extant₁ (path_for p k)) =
      requested.filter (fun k => !extant₂ (path_for p k)) :=
    List.filter_congr (fun k hk => by rw [hext k hk])
  have hmerge :
      mergeContent contents₁
        ((requested.filter (fun k => extant₂ (path_for p k))).map (path_for p))
        sep =
      mergeContent contents₂
        ((requested.filter (fun k => extant₂ (path_for p k))).map (path_for p))
        sep := by
    unfold mergeContent
    congr 1
    apply List.map_congr_left
    intro q hq
    obtain ⟨k, hk, rfl⟩ := List.mem_map.mp hq
    exact hcon k (List.mem_of_mem_filter hk)
  simp only [combine, hfound, hmissing, hmerge]

/-- Modelled from the spec: which paths exist in a filesystem state mapping
paths to optional contents. -/
def fsExtant (fs : String → Option String) : String → Bool :=
  fun q => (fs q).isSome

/-- Modelled from the spec: the contents a combine() merge reads from a
filesystem state. -/
def fsContents (fs : String → Option String) : String → String :=
  fun q => (fs q).getD ""

/-- Modelled from the spec: one combine() call observed against a filesystem
state. -/
def combineFS (p : Processor) (fs : String → Option String)
    (requested : List String) (strict : Bool) (sep : Option String) :
    CombineResult :=
  combine p (fsExtant fs) (fsContents fs) requested strict sep

/-- Modelled from the spec: the filesystem after one combine() call — the
chunk temp files are read-only during combine, and only FinalOutput
(p.outfile) is written, and only when a merge produced content. -/
def applyCombine (p : Processor) (fs : String → Option String)
    (requested : List String) (strict : Bool) (sep : Option String) :
    String → Option String :=
  match (combineFS p fs requested strict sep).finalWrite with
  | none => fs
  | some c => fun q => if q = p.outfile then some c else fs q

/-- Helper for the idempotence proof: what one combine() call leaves at the
FinalOutput path — the merged content when a merge happened, the previous
state of that path otherwise. -/
theorem applyCombine_outfile (p : Processor) (g : String → Option String)
    (requested : List String) (strict : Bool) (sep : Option String) :
    applyCombine p g requested strict sep p.outfile =
      match (combineFS p g requested strict sep).finalWrite with
      | none => g p.outfile
      | some c => some c := by
  unfold applyCombine
  cases (combineFS p g requested strict sep).finalWrite with
  | none => rfl
  | some c => simp

/-- C9: combine() is idempotent on fully-satisfied in-Limit requests: when
every requested key's temp file exists and the temp files are unchanged
between calls (FinalOutput does not collide with any of them), a second
combine() with the same arguments behaves identically — a FinalOutput is
produced on the first call and both calls leave identical FinalOutput
content. -/
theorem combine_idempotent (p : Processor) (fs : String → Option String)
    (requested : List String) (strict : Bool) (sep : Option String)
    (hne : requested ≠ [])
    (hlim : limitViolator p.limit requested = none)
    (hsat : ∀ k ∈ requested, (fs (path_for p k)).isSome = true)
    (hout : ∀ k ∈ requested, path_for p k ≠ p.outfile) :
    (combineFS p fs requested strict sep).finalWrite.isSome = true ∧
    combineFS p (applyCombine p fs requested strict sep) requested strict sep =
      combineFS p fs requested strict sep ∧
    applyCombine p (applyCombine p fs requested strict sep) requested strict
        sep p.outfile =
      applyCombine p fs requested strict sep p.outfile := by
  have hpoint : ∀ k ∈ requested,
      applyCombine p fs requested strict sep (path_for p k) =
        fs (path_for p k) := by
    intro k hk
    unfold applyCombine
    cases hw : (combineFS p fs requested strict sep).finalWrite with
    | none => rfl
    | some c => simp [hout k hk]
  have hmain : combineFS p (applyCombine p fs requested strict sep) requested
      strict sep = combineFS p fs requested strict sep := by
    apply combine_congr
    · intro k hk
      simp [fsExtant, hpoint k hk]
    · intro k hk
      simp [fsContents, hpoint k hk]
  refine ⟨?_, hmain, ?_⟩
  · obtain ⟨a, as, rfl⟩ := List.exists_cons_of_ne_nil hne
    have hmiss : (a :: as).filter (fun k => !(fsExtant fs) (path_for p k)) =
        [] := by
      apply List.filter_eq_nil_iff.mpr
      intro k hk
      simp [fsExtant, hsat k hk]
    simp [combineFS, combine, hlim, hmiss]
  · rw [applyCombine_outfile p (applyCombine p fs requested strict sep)
        requested strict sep,
      applyCombine_outfile p fs requested strict sep, hmain]
    cases (combineFS p fs requested strict sep).finalWrite with
    | none => rfl
    | some c => rfl

/-- Closed witness for C9 at a concrete processor, filesystem and request:
both calls leave the same FinalOutput content. -/
theorem combine_idempotent_witness :
    applyCombine
      { require_aligned := true, allow_unaligned := false,
        readsfileHandle := none, limit := none, temp_folder := "tmp",
        intermediate_output_type := "txt", outfile := "out.txt" }
      (applyCombine
        { require_aligned := true, allow_unaligned := false,
          readsfileHandle := none, limit := none, temp_folder := "tmp",
          intermediate_output_type := "txt", outfile := "out.txt" }
        (fun q => if q = "tmp/chr1.txt" then some "chr1-line" else none)
        ["chr1"] true none)
      ["chr1"] true none "out.txt" =
    applyCombine
      { require_aligned := true, allow_unaligned := false,
        readsfileHandle := none, limit := none, temp_folder := "tmp",
        intermediate_output_type := "txt", outfile := "out.txt" }
      (fun q => if q = "tmp/chr1.txt" then some "chr1-line" else none)
      ["chr1"] true none "out.txt" :=
  (combine_idempotent
    { require_aligned := true, allow_unaligned := false,
      readsfileHandle := none, limit := none, temp_folder := "tmp",
      intermediate_output_type := "txt", outfile := "out.txt" }
    (fun q => if q = "tmp/chr1.txt" then some "chr1-line" else none)
    ["chr1"] true none (by decide) (by decide)
    (by
      intro k hk
      simp only [List.mem_singleton] at hk
      subst hk
      decide)
    (by
      intro k hk
      simp only [List.mem_singleton] at hk
      subst hk
      decide)).2.2

end Pararead
